import Mathlib

/-!
# Verification of the words.ninja search frontend

Shallow embedding of the search-related frontend code of the
`wordsdotninja` repository:

* `frontend/src/services/api.js` — `searchPatterns` (paginated fetch) and
  `searchPatternsStreaming` (page-by-page streaming generator);
* `SearchInterface` component — `handleSearch`, `executeSearchFromURL`,
  `updateURL`, `loadMore`;
* `SearchResults` component — `getFrequencyLevel`, `getFrequencyDots`.

Scores are JavaScript floating point numbers in the source; they are only
ever compared (never added or multiplied) in the code modelled here, so
they are embedded as rationals `ℚ`, which preserves every comparison.
-/

namespace WordsNinja

/-- One decoded search result, as in the data model (`SearchResult`):
text, raw score, and rank. -/
structure SearchResult where
  text : String
  score : ℚ
  rank : Nat
deriving DecidableEq, Repr

/-- The body of one paginated `/api/search` response as the frontend
consumes it: `query`, `dictionary`, `results`, `total_results`,
`computation_limit_reached`, `error`. -/
structure SearchResponse where
  query : String
  dictionary : String
  results : List SearchResult
  total_results : Nat
  computation_limit_reached : Bool
  error : Option String
deriving DecidableEq, Repr

/-! ## Frequency levels (`SearchResults.js`, `getFrequencyLevel`)

```js
const getFrequencyLevel = (score) => {
  if (!selectedDictionary?.scale_mapping) {
    if (score >= 1000) return 10;
    ...
    if (score >= 0.5) return 2;
    return 1;
  }
  const thresholds = selectedDictionary.scale_mapping.thresholds;
  for (let i = thresholds.length - 1; i >= 0; i--) {
    if (score >= thresholds[i]) return i + 1;
  }
  return 1;
};
```
-/

/-- The fallback threshold ladder of `getFrequencyLevel`, used when the
selected dictionary carries no `scale_mapping`. -/
def fallbackLevel (score : ℚ) : Nat :=
  if 1000 ≤ score then 10
  else if 500 ≤ score then 9
  else if 100 ≤ score then 8
  else if 50 ≤ score then 7
  else if 10 ≤ score then 6
  else if 5 ≤ score then 5
  else if 2 ≤ score then 4
  else if 1 ≤ score then 3
  else if (1 / 2 : ℚ) ≤ score then 2
  else 1

/-- The descending index loop of `getFrequencyLevel`:
`for (let i = thresholds.length - 1; i >= 0; i--) if (score >= thresholds[i]) return i + 1;`
followed by `return 1`. The argument `i` is the number of indices still to
be examined, so `levelLoop ts score ts.length` is the whole loop. -/
def levelLoop (ts : List ℚ) (score : ℚ) : Nat → Nat
  | 0 => 1
  | i + 1 => if ts.getD i 0 ≤ score then i + 1 else levelLoop ts score i

/-- `getFrequencyLevel`: fallback ladder without a scale mapping, the
threshold loop with one.  `mapping = some ts` embeds
`selectedDictionary.scale_mapping.thresholds = ts`. -/
def getFrequencyLevel (mapping : Option (List ℚ)) (score : ℚ) : Nat :=
  match mapping with
  | none => fallbackLevel score
  | some ts => levelLoop ts score ts.length

/-- `getFrequencyDots` renders dots `i = 1..10`, dot `i` filled iff
`i <= level`; only the filled/empty flags are modelled. -/
def getFrequencyDots (mapping : Option (List ℚ)) (score : ℚ) : List Bool :=
  (List.range 10).map (fun i => decide (i + 1 ≤ getFrequencyLevel mapping score))

/-- The bucket the spec describes for `scoreThresholds`:
`bucket(score) = count of thresholds ≤ score`. -/
def specBucket (ts : List ℚ) (score : ℚ) : Nat :=
  ts.countP (fun t => decide (t ≤ score))

/-- The threshold loop never returns less than 1 and never more than
`max i 1` where `i` is the number of indices examined. -/
lemma levelLoop_bounds (ts : List ℚ) (score : ℚ) :
    ∀ i, 1 ≤ levelLoop ts score i ∧ levelLoop ts score i ≤ max i 1 := by
  intro i
  induction i with
  | zero => simp [levelLoop]
  | succ i ih =>
    simp only [levelLoop]
    split
    · omega
    · exact ⟨ih.1, le_trans ih.2 (by omega)⟩

/-- Indices below `ts.length` are unaffected by appending an element, so
the loop restricted to them ignores the appended element. -/
lemma levelLoop_append (ts : List ℚ) (a score : ℚ) :
    ∀ i, i ≤ ts.length → levelLoop (ts ++ [a]) score i = levelLoop ts score i := by
  intro i
  induction i with
  | zero => intro _; rfl
  | succ i ih =>
    intro hi
    simp only [levelLoop]
    rw [List.getD_append ts [a] 0 i (by omega), ih (by omega)]

/-- For a strictly increasing threshold list, the loop of
`getFrequencyLevel` computes the count of thresholds `≤ score`, clamped
below at 1. -/
lemma levelLoop_eq_specBucket (ts : List ℚ) (score : ℚ)
    (hts : List.Pairwise (· < ·) ts) :
    levelLoop ts score ts.length = max (specBucket ts score) 1 := by
  induction ts using List.reverseRecOn with
  | nil => simp [levelLoop, specBucket]
  | append_singleton ts a ih =>
    rw [List.pairwise_append] at hts
    obtain ⟨hts', -, hall⟩ := hts
    have hlen : (ts ++ [a]).length = ts.length + 1 := by simp
    rw [hlen]
    simp only [levelLoop]
    rw [List.getD_append_right ts [a] 0 ts.length le_rfl]
    simp only [Nat.sub_self, List.getD_cons_zero]
    by_cases ha : a ≤ score
    · rw [if_pos ha]
      have hcount : specBucket (ts ++ [a]) score = ts.length + 1 := by
        unfold specBucket
        rw [List.countP_append]
        have h1 : ts.countP (fun t => decide (t ≤ score)) = ts.length :=
          List.countP_eq_length.mpr (fun x hx => by
            simp only [decide_eq_true_eq]
            exact le_of_lt (lt_of_lt_of_le (hall x hx a (List.mem_singleton_self a)) ha))
        rw [h1]
        simp [ha]
      omega
    · rw [if_neg ha]
      rw [levelLoop_append ts a score ts.length le_rfl, ih hts']
      have hcount : specBucket (ts ++ [a]) score = specBucket ts score := by
        unfold specBucket
        rw [List.countP_append]
        simp [ha]
      rw [hcount]

/-- The fallback ladder returns a value between 1 and 10. -/
lemma fallbackLevel_bounds (score : ℚ) :
    1 ≤ fallbackLevel score ∧ fallbackLevel score ≤ 10 := by
  unfold fallbackLevel
  split
  · omega
  · split
    · omega
    · split
      · omega
      · split
        · omega
        · split
          · omega
          · split
            · omega
            · split
              · omega
              · split
                · omega
                · split <;> omega

end WordsNinja

namespace WordsNinja

/-- **C3.** The spec says `bucket(score) = count of thresholds ≤ score`,
so a score below every threshold should map to bucket 0.  The code's
`getFrequencyLevel` returns 1 in that case (`return 1; // Minimum level`):
with the strictly increasing threshold list `[1]` and score `0`, the code
yields level 1 while the spec's count is 0.  This closed counterexample
refutes the claim as stated. -/
theorem C3_counterexample :
    List.Pairwise (· < ·) [(1 : ℚ)] ∧
      getFrequencyLevel (some [(1 : ℚ)]) 0 = 1 ∧
      specBucket [(1 : ℚ)] 0 = 0 ∧
      getFrequencyLevel (some [(1 : ℚ)]) 0 ≠ specBucket [(1 : ℚ)] 0 := by
  refine ⟨by decide, by decide, by decide, by decide⟩

/-- **C3 (amended).** For every score and every strictly increasing
threshold list attached to a corpus descriptor, the frequency bucket
computed by `getFrequencyLevel` equals the count of thresholds less than
or equal to the score, clamped below at 1; in particular a score below
every threshold maps to bucket 1, not 0. -/
theorem C3_level_eq_clamped_count (ts : List ℚ) (score : ℚ)
    (hts : List.Pairwise (· < ·) ts) :
    getFrequencyLevel (some ts) score = max (specBucket ts score) 1 := by
  unfold getFrequencyLevel
  exact levelLoop_eq_specBucket ts score hts

/-- Witness for `C3_level_eq_clamped_count` at thresholds `[1, 2]` and
score `3/2`: exactly one threshold is `≤ 3/2`, and the level is 1. -/
theorem C3_level_eq_clamped_count_witness :
    getFrequencyLevel (some [(1 : ℚ), 2]) (3 / 2) =
      max (specBucket [(1 : ℚ), 2] (3 / 2)) 1 :=
  C3_level_eq_clamped_count [(1 : ℚ), 2] (3 / 2) (by decide)

/-- **C9.** For every score and every configuration — no scale mapping
(fallback ladder) or a mapping with a non-empty threshold list — the
frequency level is at least 1, at most 10 in the fallback case, and at
most the threshold list's length in the mapping case; consequently the
frequency gauge renders exactly 10 dots with at least one filled. -/
theorem C9_level_bounds_and_dots (mapping : Option (List ℚ)) (score : ℚ) :
    1 ≤ getFrequencyLevel mapping score ∧
      (mapping = none → getFrequencyLevel mapping score ≤ 10) ∧
      (∀ ts, mapping = some ts → ts ≠ [] →
        getFrequencyLevel mapping score ≤ ts.length) ∧
      (getFrequencyDots mapping score).length = 10 ∧
      true ∈ getFrequencyDots mapping score := by
  have hlow : 1 ≤ getFrequencyLevel mapping score := by
    cases mapping with
    | none => exact (fallbackLevel_bounds score).1
    | some ts => exact (levelLoop_bounds ts score ts.length).1
  refine ⟨hlow, ?_, ?_, ?_, ?_⟩
  · intro h
    subst h
    exact (fallbackLevel_bounds score).2
  · intro ts h hne
    subst h
    have := (levelLoop_bounds ts score ts.length).2
    have hlen : 1 ≤ ts.length := List.length_pos.mpr hne
    simp only [getFrequencyLevel]
    omega
  · simp [getFrequencyDots]
  · unfold getFrequencyDots
    refine List.mem_map.mpr ⟨0, ?_, ?_⟩
    · simp
    · simpa using hlow

/-! ## Streaming fetch (`api.js`, `searchPatternsStreaming`)

```js
export const searchPatternsStreaming = async function* (query, maxComputation, dictionary) {
  let offset = 0;
  const limit = 50;
  let hasMore = true;
  while (hasMore) {
    try {
      const response = await searchPatterns(query, limit, offset, maxComputation, dictionary);
      if (response.error) { yield { type: 'error', message: response.error }; return; }
      for (const result of response.results) { yield { type: 'result', data: result }; }
      if (response.computation_limit_reached) {
        yield { type: 'limit_reached', computation: maxComputation }; return;
      }
      hasMore = response.results.length === limit;
      offset += limit;
      if (!hasMore) { yield { type: 'done' }; }
    } catch (error) { yield { type: 'error', message: error.message }; return; }
  }
};
```

The generator performs one paginated fetch per iteration, at offsets
`0, 50, 100, …`.  Each fetch either returns a response or throws; the
sequence of fetch outcomes is embedded as a `List (Except String
SearchResponse)` whose `k`-th element is the outcome of the fetch at
offset `50 * k`.  A run that exhausts the list while `hasMore` still
holds corresponds to a generator that is still awaiting its next page.
-/

/-- One event pushed by `searchPatternsStreaming`. -/
inductive StreamEvent where
  | result (r : SearchResult)
  | limitReached (computation : Nat)
  | done
  | error (msg : String)
deriving DecidableEq, Repr

/-- `true` exactly on the three terminal event kinds. -/
def StreamEvent.isTerminal : StreamEvent → Bool
  | .result _ => false
  | .limitReached _ => true
  | .done => true
  | .error _ => true

/-- `true` exactly on `result` events. -/
def StreamEvent.isResult : StreamEvent → Bool
  | .result _ => true
  | _ => false

/-- The event sequence emitted by one run of `searchPatternsStreaming`,
as a function of the successive fetch outcomes. -/
def streamEvents (maxComputation : Nat) :
    List (Except String SearchResponse) → List StreamEvent
  | [] => []
  | .error e :: _ => [.error e]
  | .ok r :: rest =>
    match r.error with
    | some msg => [.error msg]
    | none =>
      r.results.map .result ++
        (if r.computation_limit_reached then [.limitReached maxComputation]
         else if r.results.length = 50 then streamEvents maxComputation rest
         else [.done])

/-- `true` when the fetch-outcome sequence drives the generator's loop to
termination (a thrown fetch, an error page, a limit page, or a short
page) before the sequence is exhausted. -/
def streamCompletes : List (Except String SearchResponse) → Bool
  | [] => false
  | .error _ :: _ => true
  | .ok r :: rest =>
    r.error.isSome || r.computation_limit_reached ||
      (if r.results.length = 50 then streamCompletes rest else true)

/-- The pages actually consumed by one run of the generator, in fetch
order (offsets `0, 50, 100, …`): every page up to and including the one
that triggers the terminal event, or all pages supplied if the run is cut
short. -/
def consumedPages : List (Except String SearchResponse) → List SearchResponse
  | [] => []
  | .error _ :: _ => []
  | .ok r :: rest =>
    r :: (if r.error.isSome then []
          else if r.computation_limit_reached then []
          else if r.results.length = 50 then consumedPages rest
          else [])

/-- The `result`-event payloads of an event sequence, in emission order. -/
def resultPayloads (es : List StreamEvent) : List SearchResult :=
  es.filterMap (fun e => match e with | .result r => some r | _ => none)

/-- Shape of every run: a completing run is result events followed by a
single terminal event; a cut-short run is result events only. -/
lemma streamEvents_shape (maxComputation : Nat)
    (pages : List (Except String SearchResponse)) :
    (streamCompletes pages = true →
      ∃ (rs : List SearchResult) (t : StreamEvent), streamEvents maxComputation pages = rs.map StreamEvent.result ++ [t] ∧
        t.isTerminal = true) ∧
    (streamCompletes pages = false →
      ∃ (rs : List SearchResult), streamEvents maxComputation pages = rs.map StreamEvent.result) := by
  induction pages with
  | nil =>
    refine ⟨fun h => by simp [streamCompletes] at h, fun _ => ⟨[], by simp [streamEvents]⟩⟩
  | cons page rest ih =>
    cases page with
    | error e =>
      refine ⟨fun _ => ⟨[], .error e, by simp [streamEvents], rfl⟩,
        fun h => by simp [streamCompletes] at h⟩
    | ok r =>
      cases herr : r.error with
      | some msg =>
        refine ⟨fun _ => ⟨[], .error msg, by simp [streamEvents, herr], rfl⟩,
          fun h => by simp [streamCompletes, herr] at h⟩
      | none =>
        by_cases hcl : r.computation_limit_reached
        · refine ⟨fun _ => ⟨r.results, .limitReached maxComputation, ?_, rfl⟩,
            fun h => by simp [streamCompletes, herr, hcl] at h⟩
          simp [streamEvents, herr, hcl]
        · by_cases hfull : r.results.length = 50
          · constructor
            · intro h
              have hrest : streamCompletes rest = true := by
                simpa [streamCompletes, herr, hcl, hfull] using h
              obtain ⟨rs, t, hes, ht⟩ := ih.1 hrest
              refine ⟨r.results ++ rs, t, ?_, ht⟩
              simp [streamEvents, herr, hcl, hfull, hes]
            · intro h
              have hrest : streamCompletes rest = false := by
                simpa [streamCompletes, herr, hcl, hfull] using h
              obtain ⟨rs, hes⟩ := ih.2 hrest
              refine ⟨r.results ++ rs, ?_⟩
              simp [streamEvents, herr, hcl, hfull, hes]
          · refine ⟨fun _ => ⟨r.results, .done, ?_, rfl⟩,
              fun h => by simp [streamCompletes, herr, hcl, hfull] at h⟩
            simp [streamEvents, herr, hcl, hfull]

/-- **C1.** For every run of the streaming fetch, every event except
possibly the last is a `result` event (so nothing of any kind follows a
terminal event), and whenever the fetch-outcome sequence drives the run
to completion the emitted sequence is zero or more `result` events
followed by exactly one terminal event (`limit_reached`, `done`, or
`error`). -/
theorem C1_stream_terminal_shape (maxComputation : Nat)
    (pages : List (Except String SearchResponse)) :
    (∀ e ∈ (streamEvents maxComputation pages).dropLast, e.isResult = true) ∧
    (streamCompletes pages = true →
      ∃ (rs : List SearchResult) (t : StreamEvent), streamEvents maxComputation pages = rs.map StreamEvent.result ++ [t] ∧
        t.isTerminal = true ∧
        (∀ e ∈ rs.map StreamEvent.result, e.isResult = true)) := by
  have hshape := streamEvents_shape maxComputation pages
  constructor
  · intro e he
    cases hc : streamCompletes pages with
    | true =>
      obtain ⟨rs, t, hes, -⟩ := hshape.1 hc
      rw [hes, List.dropLast_concat] at he
      obtain ⟨r, -, hr⟩ := List.mem_map.mp he
      rw [← hr]
      rfl
    | false =>
      obtain ⟨rs, hes⟩ := hshape.2 hc
      rw [hes] at he
      have := List.dropLast_subset (rs.map StreamEvent.result) he
      obtain ⟨r, -, hr⟩ := List.mem_map.mp this
      rw [← hr]
      rfl
  · intro hc
    obtain ⟨rs, t, hes, ht⟩ := hshape.1 hc
    refine ⟨rs, t, hes, ht, ?_⟩
    intro e he
    obtain ⟨r, -, hr⟩ := List.mem_map.mp he
    rw [← hr]
    rfl

/-- Witness for `C1_stream_terminal_shape`: a run over one short page
(two results, no error, no limit marker) completes, and its event
sequence is the two `result` events followed by the single terminal
`done` event. -/
theorem C1_stream_terminal_shape_witness :
    (∀ e ∈ (streamEvents 1000000
        [Except.ok ⟨"q", "wikipedia", [⟨"silent", 86937, 0⟩, ⟨"listen", 36298, 1⟩],
          2, false, none⟩]).dropLast, e.isResult = true) ∧
    (∃ (rs : List SearchResult) (t : StreamEvent), streamEvents 1000000
        [Except.ok ⟨"q", "wikipedia", [⟨"silent", 86937, 0⟩, ⟨"listen", 36298, 1⟩],
          2, false, none⟩] = rs.map StreamEvent.result ++ [t] ∧
        t.isTerminal = true ∧
        (∀ e ∈ rs.map StreamEvent.result, e.isResult = true)) :=
  ⟨(C1_stream_terminal_shape 1000000
      [Except.ok ⟨"q", "wikipedia", [⟨"silent", 86937, 0⟩, ⟨"listen", 36298, 1⟩],
        2, false, none⟩]).1,
   (C1_stream_terminal_shape 1000000
      [Except.ok ⟨"q", "wikipedia", [⟨"silent", 86937, 0⟩, ⟨"listen", 36298, 1⟩],
        2, false, none⟩]).2 (by decide)⟩

/-- The payloads of a block of `result` events are exactly the results
they wrap. -/
lemma resultPayloads_map_result (rs : List SearchResult) :
    resultPayloads (rs.map StreamEvent.result) = rs := by
  induction rs with
  | nil => rfl
  | cons r rs ih => simp only [List.map_cons, resultPayloads, List.filterMap_cons] at *; simp [ih]

lemma resultPayloads_append (es fs : List StreamEvent) :
    resultPayloads (es ++ fs) = resultPayloads es ++ resultPayloads fs := by
  simp [resultPayloads, List.filterMap_append]

lemma resultPayloads_nil : resultPayloads [] = [] := rfl

lemma resultPayloads_error (msg : String) :
    resultPayloads [StreamEvent.error msg] = [] := rfl

lemma resultPayloads_limitReached (c : Nat) :
    resultPayloads [StreamEvent.limitReached c] = [] := rfl

lemma resultPayloads_done : resultPayloads [StreamEvent.done] = [] := rfl

/-- **C5.** For every fetch-outcome sequence in which hard-failure pages
carry no results (the spec's invariant on responses), the `SearchResult`s
delivered by the streaming generator are exactly the concatenation, in
fetch order (offsets 0, 50, 100, …), of the result lists of the pages the
run consumes — no reordering, omission, or duplication. -/
theorem C5_stream_results_concat (maxComputation : Nat)
    (pages : List (Except String SearchResponse))
    (hok : ∀ p ∈ pages, ∀ r : SearchResponse, p = Except.ok r →
      r.error.isSome = true → r.results = []) :
    resultPayloads (streamEvents maxComputation pages) =
      ((consumedPages pages).map SearchResponse.results).flatten := by
  induction pages with
  | nil => rfl
  | cons page rest ih =>
    have hok' : ∀ p ∈ rest, ∀ r : SearchResponse, p = Except.ok r →
        r.error.isSome = true → r.results = [] :=
      fun p hp => hok p (List.mem_cons_of_mem _ hp)
    cases page with
    | error e =>
      simp only [streamEvents, consumedPages, resultPayloads_error, List.map_nil,
        List.flatten_nil]
    | ok r =>
      cases herr : r.error with
      | some msg =>
        have hempty : r.results = [] :=
          hok (Except.ok r) (List.mem_cons_self _ _) r rfl (by simp [herr])
        simp only [streamEvents, consumedPages, herr, Option.isSome_some, if_true,
          resultPayloads_error, List.map_cons, List.map_nil, List.flatten_cons,
          List.flatten_nil, hempty, List.append_nil]
      | none =>
        by_cases hcl : r.computation_limit_reached
        · rw [show streamEvents maxComputation (Except.ok r :: rest) =
              r.results.map StreamEvent.result ++ [StreamEvent.limitReached maxComputation] by
            simp [streamEvents, herr, hcl]]
          rw [resultPayloads_append, resultPayloads_map_result, resultPayloads_limitReached]
          simp [consumedPages, herr, hcl]
        · by_cases hfull : r.results.length = 50
          · rw [show streamEvents maxComputation (Except.ok r :: rest) =
                r.results.map StreamEvent.result ++ streamEvents maxComputation rest by
              simp [streamEvents, herr, hcl, hfull]]
            rw [resultPayloads_append, resultPayloads_map_result, ih hok']
            simp [consumedPages, herr, hcl, hfull]
          · rw [show streamEvents maxComputation (Except.ok r :: rest) =
                r.results.map StreamEvent.result ++ [StreamEvent.done] by
              simp [streamEvents, herr, hcl, hfull]]
            rw [resultPayloads_append, resultPayloads_map_result, resultPayloads_done]
            simp [consumedPages, herr, hcl, hfull]

/-- Witness for `C5_stream_results_concat`: a two-page run (one full page
of 50 results, then an error page with empty results) delivers exactly
the 50 results of the first page. -/
theorem C5_stream_results_concat_witness :
    resultPayloads (streamEvents 1000000
        [Except.ok ⟨"q", "wikipedia",
            (List.range 50).map (fun i => ⟨"w", 1, i⟩), 50, false, none⟩,
         Except.ok ⟨"q", "wikipedia", [], 0, false, some "boom"⟩]) =
      ((consumedPages
        [Except.ok ⟨"q", "wikipedia",
            (List.range 50).map (fun i => ⟨"w", 1, i⟩), 50, false, none⟩,
         Except.ok ⟨"q", "wikipedia", [], 0, false, some "boom"⟩]).map
          SearchResponse.results).flatten :=
  C5_stream_results_concat 1000000
    [Except.ok ⟨"q", "wikipedia",
        (List.range 50).map (fun i => ⟨"w", 1, i⟩), 50, false, none⟩,
     Except.ok ⟨"q", "wikipedia", [], 0, false, some "boom"⟩]
    (by
      intro p hp r hrp hsome
      simp only [List.mem_cons, List.not_mem_nil, or_false] at hp
      rcases hp with h | h
      · rw [h] at hrp
        injection hrp with h2
        rw [← h2] at hsome
        simp at hsome
      · rw [h] at hrp
        injection hrp with h2
        rw [← h2])

/-! ## Paginated fetch (`api.js`, `searchPatterns`)

```js
export const searchPatterns = async (query, limit = 50, offset = 0, maxComputation = 1000000, dictionary = 'wikipedia') => {
  try {
    const response = await api.get('/search', {
      params: { q: query, dictionary, limit, offset, max_computation: maxComputation },
    });
    return response.data;
  } catch (error) {
    if (error.response?.data?.detail) { throw new Error(error.response.data.detail); }
    throw error;
  }
};
```

The backend (`api/main.py`, not part of the frontend sources) is taken as
a parameter: a function from the request parameters to either a response
body or a transport/HTTP error, which embeds the spec's "deterministic
matcher stub".
-/

/-- The query parameters `searchPatterns` sends with `/api/search`. -/
structure SearchRequest where
  q : String
  dictionary : String
  limit : Nat
  offset : Nat
  max_computation : Nat
deriving DecidableEq, Repr

/-- A failed axios call as `searchPatterns` sees it:
`error.response?.data?.detail` when the server supplied a detail body,
plus the error's own message. -/
structure ApiError where
  detail : Option String
  message : String
deriving DecidableEq, Repr

/-- `searchPatterns`: build the request, run it against the backend, and
on failure re-throw the server's `detail` when present, the original
error otherwise. -/
def searchPatterns (backend : SearchRequest → Except ApiError SearchResponse)
    (query : String) (limit offset maxComputation : Nat) (dictionary : String) :
    Except String SearchResponse :=
  match backend ⟨query, dictionary, limit, offset, maxComputation⟩ with
  | .ok data => .ok data
  | .error e => .error (match e.detail with | some d => d | none => e.message)

/-- **C7.** With the backend (matcher included) modelled as a
deterministic function, two paginated calls of `searchPatterns` with the
same `(query, dictionary, offset, limit, max_computation)` parameters
return identical outcomes; in particular two successful outcomes agree on
every field of the `SearchOutcome`. -/
theorem C7_paginated_determinism
    (backend : SearchRequest → Except ApiError SearchResponse)
    (query dictionary : String) (limit offset maxComputation : Nat) :
    searchPatterns backend query limit offset maxComputation dictionary =
      searchPatterns backend query limit offset maxComputation dictionary ∧
    (∀ o₁ o₂ : SearchResponse,
      searchPatterns backend query limit offset maxComputation dictionary = Except.ok o₁ →
      searchPatterns backend query limit offset maxComputation dictionary = Except.ok o₂ →
      o₁.query = o₂.query ∧ o₁.dictionary = o₂.dictionary ∧
        o₁.results = o₂.results ∧ o₁.total_results = o₂.total_results ∧
        o₁.computation_limit_reached = o₂.computation_limit_reached ∧
        o₁.error = o₂.error) := by
  refine ⟨rfl, ?_⟩
  intro o₁ o₂ h₁ h₂
  have : o₁ = o₂ := by
    have := h₁.symm.trans h₂
    exact Except.ok.inj this
  subst this
  exact ⟨rfl, rfl, rfl, rfl, rfl, rfl⟩

/-- Witness for `C7_paginated_determinism` against a concrete
deterministic backend stub returning a fixed successful outcome. -/
theorem C7_paginated_determinism_witness :
    searchPatterns (fun _ => Except.ok ⟨"q", "wikipedia", [], 0, false, none⟩)
        "q" 50 0 1000000 "wikipedia" =
      searchPatterns (fun _ => Except.ok ⟨"q", "wikipedia", [], 0, false, none⟩)
        "q" 50 0 1000000 "wikipedia" ∧
    ((⟨"q", "wikipedia", [], 0, false, none⟩ : SearchResponse).query =
        (⟨"q", "wikipedia", [], 0, false, none⟩ : SearchResponse).query ∧
      (⟨"q", "wikipedia", [], 0, false, none⟩ : SearchResponse).dictionary =
        (⟨"q", "wikipedia", [], 0, false, none⟩ : SearchResponse).dictionary ∧
      (⟨"q", "wikipedia", [], 0, false, none⟩ : SearchResponse).results =
        (⟨"q", "wikipedia", [], 0, false, none⟩ : SearchResponse).results ∧
      (⟨"q", "wikipedia", [], 0, false, none⟩ : SearchResponse).total_results =
        (⟨"q", "wikipedia", [], 0, false, none⟩ : SearchResponse).total_results ∧
      (⟨"q", "wikipedia", [], 0, false, none⟩ : SearchResponse).computation_limit_reached =
        (⟨"q", "wikipedia", [], 0, false, none⟩ : SearchResponse).computation_limit_reached ∧
      (⟨"q", "wikipedia", [], 0, false, none⟩ : SearchResponse).error =
        (⟨"q", "wikipedia", [], 0, false, none⟩ : SearchResponse).error) :=
  ⟨(C7_paginated_determinism (fun _ => Except.ok ⟨"q", "wikipedia", [], 0, false, none⟩)
      "q" "wikipedia" 50 0 1000000).1,
   (C7_paginated_determinism (fun _ => Except.ok ⟨"q", "wikipedia", [], 0, false, none⟩)
      "q" "wikipedia" 50 0 1000000).2 _ _ rfl rfl⟩

/-! ## SearchInterface response handling (`handleSearch`, `executeSearchFromURL`)

```js
try {
  const offset = isNewSearch ? 0 : results.length;
  const response = await searchPatterns(searchQuery, 50, offset, 1000000, dictionary);
  if (response.error) {
    setError(response.error);
    setHasMore(false);
  } else {
    const newResults = isNewSearch ? response.results : [...results, ...response.results];
    setResults(newResults);
    setHasMore(response.results.length === 50 && !response.computation_limit_reached);
    if (isNewSearch) { setSearchStats({ ... }); }
  }
} catch (err) {
  setError('Failed to search. Please check your connection and try again.');
  setHasMore(false);
}
```

For a new search the handler first clears `results`, `error` and
`searchStats`.  `executeSearchFromURL` performs the same update with
`isNewSearch`-like behaviour over an initial empty result list.
-/

/-- The `searchStats` record set on a new search. -/
structure SearchStats where
  query : String
  dictionary : String
  totalResults : Nat
  computationLimitReached : Bool
deriving DecidableEq, Repr

/-- The component state touched by the search handlers. -/
structure UIState where
  results : List SearchResult
  error : Option String
  hasMore : Bool
  stats : Option SearchStats
deriving DecidableEq, Repr

/-- How `handleSearch` folds one fetch outcome into the component state
(`Except.error` is the `catch` branch). -/
def applySearchResponse (isNewSearch : Bool) (st : UIState)
    (resp : Except String SearchResponse) : UIState :=
  let st0 := if isNewSearch then { st with results := [], error := none, stats := none } else st
  match resp with
  | .error _ =>
    { st0 with
      error := some "Failed to search. Please check your connection and try again.",
      hasMore := false }
  | .ok r =>
    match r.error with
    | some msg => { st0 with error := some msg, hasMore := false }
    | none =>
      { st0 with
        results := if isNewSearch then r.results else st0.results ++ r.results,
        hasMore := (r.results.length == 50) && !r.computation_limit_reached,
        stats := if isNewSearch then
            some ⟨r.query, r.dictionary, r.total_results, r.computation_limit_reached⟩
          else st0.stats }

/-- How `executeSearchFromURL` folds the fetch outcome into the state; it
has already cleared `results`, `error` and `searchStats` before the
fetch. -/
def applyURLSearchResponse (resp : Except String SearchResponse) : UIState :=
  let st0 : UIState := ⟨[], none, false, none⟩
  match resp with
  | .error _ =>
    { st0 with
      error := some "Failed to search. Please check your connection and try again.",
      hasMore := false }
  | .ok r =>
    match r.error with
    | some msg => { st0 with error := some msg, hasMore := false }
    | none =>
      { st0 with
        results := r.results,
        hasMore := (r.results.length == 50) && !r.computation_limit_reached,
        stats := some ⟨r.query, r.dictionary, r.total_results, r.computation_limit_reached⟩ }

/-- **C2.** For every paginated response processed by `handleSearch` or
`executeSearchFromURL` (with hard failures carrying no results, as the
spec's response contract guarantees), the resulting `hasMore` flag is
true iff the response holds exactly 50 results and
`computation_limit_reached` is false; a short clean page ends the result
sequence. -/
theorem C2_hasMore_iff (isNewSearch : Bool) (st : UIState) (r : SearchResponse)
    (hok : r.error.isSome = true → r.results = []) :
    ((applySearchResponse isNewSearch st (Except.ok r)).hasMore = true ↔
      (r.results.length = 50 ∧ r.computation_limit_reached = false)) ∧
    ((applyURLSearchResponse (Except.ok r)).hasMore = true ↔
      (r.results.length = 50 ∧ r.computation_limit_reached = false)) := by
  cases herr : r.error with
  | some msg =>
    have hempty : r.results = [] := hok (by simp [herr])
    constructor <;>
      · simp only [applySearchResponse, applyURLSearchResponse, herr, hempty]
        simp
  | none =>
    constructor <;>
      simp [applySearchResponse, applyURLSearchResponse, herr,
        Bool.and_eq_true, Bool.not_eq_true']

/-- Witness for `C2_hasMore_iff` at a clean one-result response: 1 ≠ 50,
so `hasMore` is false. -/
theorem C2_hasMore_iff_witness :
    ((applySearchResponse true ⟨[], none, false, none⟩
        (Except.ok ⟨"q", "wikipedia", [⟨"cat", 5, 0⟩], 1, false, none⟩)).hasMore = true ↔
      (([⟨"cat", (5 : ℚ), 0⟩] : List SearchResult).length = 50 ∧ false = false)) ∧
    ((applyURLSearchResponse
        (Except.ok ⟨"q", "wikipedia", [⟨"cat", 5, 0⟩], 1, false, none⟩)).hasMore = true ↔
      (([⟨"cat", (5 : ℚ), 0⟩] : List SearchResult).length = 50 ∧ false = false)) :=
  C2_hasMore_iff true ⟨[], none, false, none⟩
    ⟨"q", "wikipedia", [⟨"cat", 5, 0⟩], 1, false, none⟩ (by intro h; simp at h)

/-- **C8.** A paginated response with a non-null `error` is handled as a
hard failure: the error message is surfaced, no results from that
response are added to the displayed list, and `hasMore` becomes false.  A
response with `computation_limit_reached = true` and a null `error` is a
successful partial outcome: its results are kept (appended on load-more,
shown on a new search), and on a new search the stats record the limit
flag with no error set. -/
theorem C8_hard_failure_vs_soft_truncation (isNewSearch : Bool) (st : UIState) (r : SearchResponse) :
    (∀ msg, r.error = some msg →
      (applySearchResponse isNewSearch st (Except.ok r)).error = some msg ∧
      (applySearchResponse isNewSearch st (Except.ok r)).hasMore = false ∧
      (applySearchResponse isNewSearch st (Except.ok r)).results =
        (if isNewSearch then [] else st.results)) ∧
    (r.error = none → r.computation_limit_reached = true →
      (applySearchResponse isNewSearch st (Except.ok r)).results =
        (if isNewSearch then [] else st.results) ++ r.results ∧
      (applySearchResponse isNewSearch st (Except.ok r)).error =
        (if isNewSearch then none else st.error) ∧
      (isNewSearch = true →
        (applySearchResponse isNewSearch st (Except.ok r)).stats =
          some ⟨r.query, r.dictionary, r.total_results, true⟩)) := by
  constructor
  · intro msg herr
    cases isNewSearch <;> simp [applySearchResponse, herr]
  · intro herr hcl
    cases isNewSearch <;> simp [applySearchResponse, herr, hcl]

/-- Witness for `C8_hard_failure_vs_soft_truncation`: an error response on a load-more
step keeps the previous single result, surfaces the message, and clears
`hasMore`. -/
theorem C8_hard_failure_vs_soft_truncation_witness :
    (applySearchResponse false ⟨[⟨"cat", 5, 0⟩], none, true, none⟩
        (Except.ok ⟨"q", "wikipedia", [], 0, false, some "bad pattern"⟩)).error =
      some "bad pattern" ∧
    (applySearchResponse false ⟨[⟨"cat", 5, 0⟩], none, true, none⟩
        (Except.ok ⟨"q", "wikipedia", [], 0, false, some "bad pattern"⟩)).hasMore = false ∧
    (applySearchResponse false ⟨[⟨"cat", 5, 0⟩], none, true, none⟩
        (Except.ok ⟨"q", "wikipedia", [], 0, false, some "bad pattern"⟩)).results =
      (if false then [] else [⟨"cat", (5 : ℚ), 0⟩]) :=
  (C8_hard_failure_vs_soft_truncation false ⟨[⟨"cat", 5, 0⟩], none, true, none⟩
      ⟨"q", "wikipedia", [], 0, false, some "bad pattern"⟩).1 "bad pattern" rfl

/-! ## Infinite scroll accumulation (`handleSearch` + `loadMore`)

`loadMore` re-invokes `handleSearch` with `isNewSearch = false`, which
fetches at `offset = results.length` and appends the returned page, with
a fixed page limit of 50.
-/

/-- The accumulated result list after a new search (`s = 0`) and `s`
subsequent load-more steps, against an abstract paginated fetch `page`:
step `s + 1` requests the next page at the offset equal to the number of
results already collected and appends it. -/
def accumulate (page : Nat → Nat → List SearchResult) : Nat → List SearchResult
  | 0 => page 0 50
  | s + 1 =>
    let acc := accumulate page s
    acc ++ page acc.length 50

/-- **C6.** If the paginated fetch satisfies the spec's tail property —
the page at `(offset, limit)` is the corresponding slice of the full
result sequence — then after the initial search and every load-more step
the accumulated list is exactly a prefix of the full sequence (the first
`50 * (s + 1)` results), with no gaps and no duplicates. -/
theorem C6_accumulate_prefix (F : List SearchResult)
    (page : Nat → Nat → List SearchResult)
    (hpage : ∀ offset limit, page offset limit = (F.drop offset).take limit) :
    ∀ s, accumulate page s = F.take (50 * (s + 1)) := by
  intro s
  induction s with
  | zero =>
    show page 0 50 = F.take (50 * 1)
    rw [hpage]
    simp
  | succ s ih =>
    show accumulate page s ++ page (accumulate page s).length 50 = F.take (50 * (s + 1 + 1))
    rw [ih, hpage]
    by_cases hm : 50 * (s + 1) ≤ F.length
    · have hlen : (F.take (50 * (s + 1))).length = 50 * (s + 1) := by
        rw [List.length_take]
        omega
      rw [hlen, show 50 * (s + 1 + 1) = 50 * (s + 1) + 50 by ring, List.take_add]
    · have h1 : F.take (50 * (s + 1)) = F := List.take_of_length_le (by omega)
      have hlen : (F.take (50 * (s + 1))).length = F.length := by rw [h1]
      rw [hlen, List.drop_length, h1]
      simp only [List.take_nil, List.append_nil]
      exact (List.take_of_length_le (by omega)).symm

/-- Witness for `C6_accumulate_prefix`: over a three-result full
sequence, one load-more step accumulates exactly `F.take 100 = F`. -/
theorem C6_accumulate_prefix_witness :
    accumulate
        (fun offset limit =>
          (([⟨"silent", 86937, 0⟩, ⟨"listen", 36298, 1⟩, ⟨"enlist", 7832, 2⟩] :
            List SearchResult).drop offset).take limit) 1 =
      ([⟨"silent", 86937, 0⟩, ⟨"listen", 36298, 1⟩, ⟨"enlist", 7832, 2⟩] :
        List SearchResult).take (50 * (1 + 1)) :=
  C6_accumulate_prefix
    [⟨"silent", 86937, 0⟩, ⟨"listen", 36298, 1⟩, ⟨"enlist", 7832, 2⟩]
    (fun offset limit =>
      (([⟨"silent", 86937, 0⟩, ⟨"listen", 36298, 1⟩, ⟨"enlist", 7832, 2⟩] :
        List SearchResult).drop offset).take limit)
    (fun _ _ => rfl) 1

/-! ## Blank-pattern guard (`handleSearch`) and session validation

```js
const handleSearch = useCallback(async (searchQuery, isNewSearch = true, dictionary = selectedDictionary) => {
  if (!searchQuery.trim()) {
    setResults([]);
    setError(null);
    setHasMore(false);
    setSearchStats(null);
    return;
  }
  ...
  const offset = isNewSearch ? 0 : results.length;
  const response = await searchPatterns(searchQuery, 50, offset, 1000000, dictionary);
```
-/

/-- A character `String.prototype.trim` removes (the WhiteSpace and
LineTerminator characters relevant here). -/
def jsWhitespaceChar (c : Char) : Bool :=
  c == ' ' || c == '\t' || c == '\n' || c == '\r' ||
    c == '\x0b' || c == '\x0c' || c == ' '

/-- `String.prototype.trim`: strip leading and trailing whitespace. -/
def jsTrim (s : String) : String :=
  String.mk (((s.toList.dropWhile jsWhitespaceChar).reverse.dropWhile
    jsWhitespaceChar).reverse)

/-- The entry of `handleSearch` up to the fetch: a blank query clears the
result state and issues no request; otherwise the paginated request is
built (limit 50, offset 0 for a new search, `results.length` for a
load-more, computation budget 1000000). -/
def handleSearchStart (searchQuery dictionary : String) (isNewSearch : Bool)
    (st : UIState) : Option SearchRequest × UIState :=
  if jsTrim searchQuery = "" then
    (none, ⟨[], none, false, none⟩)
  else
    (some ⟨searchQuery, dictionary, 50,
      (if isNewSearch then 0 else st.results.length), 1000000⟩, st)

/-- Session start outcome of the backend search endpoint. -/
inductive SessionOutcome where
  | invalidRequest
  | started
deriving DecidableEq, Repr

/-- A session start attempt: its outcome and the number of matcher
processes it spawned. -/
structure SessionLaunch where
  outcome : SessionOutcome
  spawnCount : Nat
deriving DecidableEq, Repr

/-- Modelled from the spec: the backend Search Session `start` of §4.4
(`api/main.py`, which is not among the provided repository files):
"Validates `pattern` is non-empty and `corpus` resolves via §4.1;
otherwise fails with `InvalidRequest` before spawning any process." -/
def sessionStart (pattern : String) (corpusResolves : Bool) : SessionLaunch :=
  if pattern = "" then ⟨.invalidRequest, 0⟩
  else if corpusResolves = false then ⟨.invalidRequest, 0⟩
  else ⟨.started, 1⟩

/-- **C4.** For every pattern that is empty or whitespace-only,
`handleSearch` issues no search request at all and leaves the displayed
result list empty, so no matcher process can be spawned for it; and (for
the empty pattern, spec-modelled) the backend session validation itself
fails with `InvalidRequest` with zero processes spawned. -/
theorem C4_blank_pattern_no_search (searchQuery dictionary : String)
    (isNewSearch : Bool) (st : UIState)
    (hblank : jsTrim searchQuery = "") :
    (handleSearchStart searchQuery dictionary isNewSearch st).1 = none ∧
    (handleSearchStart searchQuery dictionary isNewSearch st).2.results = [] ∧
    (searchQuery = "" → ∀ corpusResolves,
      sessionStart searchQuery corpusResolves = ⟨.invalidRequest, 0⟩) := by
  refine ⟨?_, ?_, ?_⟩
  · simp [handleSearchStart, hblank]
  · simp [handleSearchStart, hblank]
  · intro hempty corpusResolves
    rw [hempty]
    rfl

/-- Witness for `C4_blank_pattern_no_search` at the empty pattern,
discharging also the inner spec-modelled clause. -/
theorem C4_blank_pattern_no_search_witness :
    (handleSearchStart "" "wikipedia" true ⟨[], none, false, none⟩).1 = none ∧
    (handleSearchStart "" "wikipedia" true ⟨[], none, false, none⟩).2.results = [] ∧
    sessionStart "" true = ⟨.invalidRequest, 0⟩ :=
  ⟨(C4_blank_pattern_no_search "" "wikipedia" true ⟨[], none, false, none⟩ rfl).1,
   (C4_blank_pattern_no_search "" "wikipedia" true ⟨[], none, false, none⟩ rfl).2.1,
   (C4_blank_pattern_no_search "" "wikipedia" true ⟨[], none, false, none⟩ rfl).2.2 rfl true⟩

/-! ## URL round trip (`updateURL` / `executeSearchFromURL`)

```js
const updateURL = (searchQuery, dictionary) => {
  const url = new URL(window.location);
  url.searchParams.set('q', searchQuery);
  url.searchParams.set('dict', dictionary);
  window.history.pushState({}, '', url);
};

const executeSearchFromURL = useCallback(async () => {
  const urlParams = new URLSearchParams(window.location.search);
  const urlQuery = urlParams.get('q') || '';
  const urlDict = urlParams.get('dict') || 'wikipedia';
  ...
  if (!urlQuery.trim()) { ... return; }
  const response = await searchPatterns(urlQuery, 50, 0, 1000000, urlDict);
```

`URLSearchParams` is modelled as an association list with one entry per
key after `set`; `set` and `get` of the platform are mutually inverse on
values (percent-encoding round-trips), which the model reflects by
storing values directly.  `x || fallback` on strings is JavaScript
falsiness: both a missing parameter and an empty one select the fallback.
-/

/-- `URLSearchParams.set`: replace any entry for `k` with `(k, v)`. -/
def setParam (ps : List (String × String)) (k v : String) :
    List (String × String) :=
  (k, v) :: ps.filter (fun p => !(p.1 == k))

/-- `URLSearchParams.get`: value of the first entry for `k`, if any. -/
def getParam (ps : List (String × String)) (k : String) : Option String :=
  (ps.find? (fun p => p.1 == k)).map Prod.snd

/-- `x || fallback` for a possibly-missing string: the fallback on
`null` and on the empty string. -/
def jsOrElse (v : Option String) (fallback : String) : String :=
  match v with
  | none => fallback
  | some s => if s = "" then fallback else s

/-- `updateURL`: write the search into the `q` and `dict` parameters. -/
def updateURL (ps : List (String × String)) (searchQuery dictionary : String) :
    List (String × String) :=
  setParam (setParam ps "q" searchQuery) "dict" dictionary

/-- The `(query, dictionary)` pair `executeSearchFromURL` reads back and
searches with, or `none` when the recovered query is blank and no search
runs. -/
def executeSearchFromURLQuery (ps : List (String × String)) :
    Option (String × String) :=
  let urlQuery := jsOrElse (getParam ps "q") ""
  let urlDict := jsOrElse (getParam ps "dict") "wikipedia"
  if jsTrim urlQuery = "" then none
  else some (urlQuery, urlDict)

lemma getParam_setParam_same (ps : List (String × String)) (k v : String) :
    getParam (setParam ps k v) k = some v := by
  simp [getParam, setParam, List.find?_cons]

lemma find?_filter_ne (ps : List (String × String)) (k k' : String)
    (h : k' ≠ k) :
    (ps.filter (fun p => !(p.1 == k))).find? (fun p => p.1 == k') =
      ps.find? (fun p => p.1 == k') := by
  induction ps with
  | nil => rfl
  | cons a ps ih =>
    by_cases hak : a.1 = k
    · have hb1 : (a.1 == k) = true := by simp [hak]
      have hb2 : (a.1 == k') = false := by
        simp only [beq_eq_false_iff_ne]
        rw [hak]
        exact fun hh => h hh.symm
      simp [List.filter_cons, List.find?_cons, hb1, hb2, ih]
    · have hb1 : (a.1 == k) = false := by simp [hak]
      by_cases ha' : a.1 = k'
      · have hb2 : (a.1 == k') = true := by simp [ha']
        simp [List.filter_cons, List.find?_cons, hb1, hb2]
      · have hb2 : (a.1 == k') = false := by simp [ha']
        simp [List.filter_cons, List.find?_cons, hb1, hb2, ih]

lemma getParam_setParam_other (ps : List (String × String)) (k k' v : String)
    (h : k' ≠ k) :
    getParam (setParam ps k v) k' = getParam ps k' := by
  have hkk : ((k, v).1 == k') = false :=
    beq_eq_false_iff_ne.mpr (fun hh => h hh.symm)
  simp only [getParam, setParam]
  rw [List.find?_cons_of_neg _ (by simp [hkk]), find?_filter_ne ps k k' h]

/-- **C10 (counterexample).** The round trip fails as universally stated:
writing the empty dictionary id with `updateURL` and reading it back
recovers the default `"wikipedia"` instead, because `urlParams.get('dict')
|| 'wikipedia'` treats the empty string as absent; so the re-run search
does not use the same `(query, dictionary)` pair. -/
theorem C10_counterexample :
    executeSearchFromURLQuery (updateURL [] "a" "") = some ("a", "wikipedia") ∧
      executeSearchFromURLQuery (updateURL [] "a" "") ≠ some ("a", "") := by
  refine ⟨by decide, by decide⟩

/-- **C10 (amended).** For every query whose trimmed form is non-empty
and every non-empty dictionary id, writing the search into the URL with
`updateURL` and reading it back with `executeSearchFromURL` recovers
exactly that query and dictionary and runs the search with them; a
whitespace-only query is not re-run, and an empty dictionary id falls
back to `"wikipedia"`. -/
theorem C10_url_roundtrip (ps : List (String × String)) (q d : String)
    (hq : jsTrim q ≠ "") (hd : d ≠ "") :
    executeSearchFromURLQuery (updateURL ps q d) = some (q, d) := by
  have hq' : q ≠ "" := by
    intro h
    exact hq (by rw [h]; rfl)
  unfold executeSearchFromURLQuery updateURL
  rw [getParam_setParam_other (setParam ps "q" q) "dict" "q" d (by decide),
    getParam_setParam_same, getParam_setParam_same]
  simp only [jsOrElse, hq', hd, if_false, ite_false]
  rw [if_neg hq]

/-- Witness for `C10_url_roundtrip` at query `"abc"` and dictionary
`"scrabble"` over an empty parameter map. -/
theorem C10_url_roundtrip_witness :
    executeSearchFromURLQuery (updateURL [] "abc" "scrabble") =
      some ("abc", "scrabble") :=
  C10_url_roundtrip [] "abc" "scrabble" (by decide) (by decide)

/-- Witness for `C9_level_bounds_and_dots` at the mapping `[1]` and
score `5`, discharging both conditional clauses that can hold there. -/
theorem C9_level_bounds_and_dots_witness :
    1 ≤ getFrequencyLevel (some [(1 : ℚ)]) 5 ∧
      getFrequencyLevel (some [(1 : ℚ)]) 5 ≤ [(1 : ℚ)].length ∧
      (getFrequencyDots (some [(1 : ℚ)]) 5).length = 10 ∧
      true ∈ getFrequencyDots (some [(1 : ℚ)]) 5 :=
  ⟨(C9_level_bounds_and_dots (some [(1 : ℚ)]) 5).1,
   (C9_level_bounds_and_dots (some [(1 : ℚ)]) 5).2.2.1 [(1 : ℚ)] rfl (by decide),
   (C9_level_bounds_and_dots (some [(1 : ℚ)]) 5).2.2.2.1,
   (C9_level_bounds_and_dots (some [(1 : ℚ)]) 5).2.2.2.2⟩

end WordsNinja
